import Mathlib

/-!
Shallow embedding of the go-practice repository pieces the claims are about:
the net/http tutorial (src/concepts/net/http/main.go) and the json codec
(src/concepts/json/json.go, json_test.go).

Handlers are modelled as state transformers over an explicit request-handling
state `St` that carries the response sink, a logical clock (standing for
time.Now) and the log emitted via log.Printf.  The Go standard library parts
the source calls into (http.ServeMux pattern matching of Go 1.17, the version
the source's comments link to, http.StripPrefix, the ResponseWriter
status-code discipline, and encoding/json object decoding with
DisallowUnknownFields) are embedded from their documented stdlib semantics.
-/

namespace GoPractice

/-- String helper: does `s` start with `p`?  (byte/char level, as Go's
strings.HasPrefix). -/
def strStarts (s p : String) : Bool := List.isPrefixOf p.data s.data

/-- String helper: does `s` end with `p`?  (as Go's strings.HasSuffix). -/
def strEnds (s p : String) : Bool := List.isSuffixOf p.data s.data

/-- String helper: length in characters. -/
def strLen (s : String) : Nat := s.data.length

/-- String helper: drop the first `n` characters (Go slicing `s[n:]` for
ASCII content, as produced by strings.TrimPrefix). -/
def strDrop (s : String) (n : Nat) : String := String.mk (s.data.drop n)

/-- The response sink: the observable part of an http.ResponseWriter.
`status` is the status code actually sent (none while the header is not yet
written); `body` accumulates the bytes passed to Write. -/
structure Sink where
  status : Option Nat
  body : String
deriving Repr, DecidableEq

/-- A fresh sink: no status written, empty body. -/
def sink0 : Sink := ⟨none, ""⟩

/-- ResponseWriter.Write: an implicit WriteHeader(200) happens if the header
has not been written yet, then the chunk is appended to the body. -/
def Sink.write (s : Sink) (chunk : String) : Sink :=
  ⟨some (s.status.getD 200), s.body ++ chunk⟩

/-- ResponseWriter.WriteHeader: sets the status code; a second call is
superfluous and ignored (net/http logs and drops it). -/
def Sink.writeHeader (s : Sink) (code : Nat) : Sink :=
  if s.status.isSome then s else ⟨some code, s.body⟩

/-- An http.Request: method, host, URL path, and the header mapping.
Headers are a key/value list; Header.Get returns the first value. -/
structure Request where
  method : String
  host : String
  path : String
  headers : List (String × String)
deriving Repr, DecidableEq

/-- http.Header.Get: first value for the key, "" when the key is absent. -/
def headerGet (hs : List (String × String)) (key : String) : String :=
  match hs.find? (fun kv => kv.1 == key) with
  | some kv => kv.2
  | none => ""

/-- Request-handling state: the response sink, a logical clock read by
time.Now, and the list of records written via log.Printf (here: a path
together with the logged duration). -/
structure St where
  sink : Sink
  now : Nat
  log : List (String × Int)
deriving Repr, DecidableEq

/-- A fresh request-handling state. -/
def st0 : St := ⟨sink0, 0, []⟩

/-- Lift Sink.write to the handling state. -/
def St.write (st : St) (chunk : String) : St :=
  { st with sink := st.sink.write chunk }

/-- Lift Sink.writeHeader to the handling state. -/
def St.writeHeader (st : St) (code : Nat) : St :=
  { st with sink := st.sink.writeHeader code }

/-- http.Handler: ServeHTTP(w, r), modelled as a state transformer. -/
def Handler : Type := Request → St → St

/-- http.NotFoundHandler / http.NotFound: Error(w, "404 page not found",
StatusNotFound) writes the header and then the message with a newline. -/
def notFoundHandler : Handler := fun _ st =>
  (st.writeHeader 404).write "404 page not found\n"

/-- A ServeMux route table entry: registered pattern and its handler. -/
def Entry : Type := String × Handler

/-- Of two entries, the one with the longer pattern. -/
def better (e b : Entry) : Entry := if strLen b.1 < strLen e.1 then e else b

/-- Longest entry among the slash-terminated candidates: Go 1.17 keeps
`mux.es` sorted by pattern length, longest first, and returns the first
candidate whose pattern is a prefix of the path; over a candidate list this
selects a candidate of maximal pattern length. -/
def bestSlash : List Entry → Option Entry
  | [] => none
  | e :: rest => some ((bestSlash rest).elim e (better e))

/-- ServeMux.match (Go 1.17): exact pattern match first, else the longest
registered pattern that ends in "/" and is a prefix of the path. -/
def muxMatch (entries : List Entry) (path : String) : Option Entry :=
  match entries.find? (fun e => e.1 == path) with
  | some e => some e
  | none => bestSlash (entries.filter (fun e => strEnds e.1 "/" && strStarts path e.1))

/-- Does the route table contain a host-qualified pattern (one that does not
start with "/")?  Mirrors the `mux.hosts` flag set by Handle. -/
def hasHostEntry (entries : List Entry) : Bool :=
  entries.any (fun e => !strStarts e.1 "/")

/-- ServeMux.handler(host, path) (Go 1.17): when some pattern is
host-qualified, try host+path first, then path alone, else NotFoundHandler. -/
def muxHandlerFor (entries : List Entry) (host path : String) : Handler :=
  match (if hasHostEntry entries then muxMatch entries (host ++ path) else none) with
  | some e => e.2
  | none =>
    match muxMatch entries path with
    | some e => e.2
    | none => notFoundHandler

/-- A ServeMux as an http.Handler: dispatch on the request's host and path. -/
def serveMux (entries : List Entry) : Handler := fun r st =>
  muxHandlerFor entries r.host r.path r st

/-- The /alive handler registered in newServeMux: writes "ok!\n". -/
def aliveHandler : Handler := fun _ st => St.write st "ok!\n"

/-- The handler registered in newServeMux under the pattern "ready" (note:
the source registers the pattern without a leading slash): writes
"always\n". -/
def readyHandler : Handler := fun _ st => St.write st "always\n"

/-- The route table built by newServeMux: HandleFunc("/alive", …) and
HandleFunc("ready", …), exactly as in the source. -/
def newServeMuxEntries : List Entry :=
  [("/alive", aliveHandler), ("ready", readyHandler)]

/-- The mux built by newServeMux, as the server's root handler. -/
def newServeMuxHandler : Handler := serveMux newServeMuxEntries

/-- A plain GET request with no headers. -/
def getReq (host path : String) : Request := ⟨"GET", host, path, []⟩

/-- Run one GET request for `path` against the newServeMux server from a
fresh state (host as in the source's ":8000" example). -/
def newServeMuxRun (path : String) : St :=
  newServeMuxHandler (getReq "localhost:8000" path) st0

/-- The /fetch handler of the nested user mux in parentChildMux. -/
def userFetchHandler : Handler := fun _ st => St.write st "This is a user!"

/-- The /fetch handler of the nested record mux in parentChildMux. -/
def recordFetchHandler : Handler := fun _ st => St.write st "This is a record!"

/-- The nested user mux of parentChildMux. -/
def userMux : Handler := serveMux [("/fetch", userFetchHandler)]

/-- The nested record mux of parentChildMux. -/
def recordMux : Handler := serveMux [("/fetch", recordFetchHandler)]

/-- http.StripPrefix(pfx, h): if the request path has pfx as a (nonempty)
leading part it is removed before delegating to h, otherwise the request is
answered with http.NotFound.  (Go: strings.TrimPrefix plus the check that the
path actually got shorter.) -/
def stripPfx (pfx : String) (h : Handler) : Handler :=
  if pfx = "" then h
  else fun r st =>
    if strStarts r.path pfx then
      h { r with path := strDrop r.path (strLen pfx) } st
    else
      notFoundHandler r st

/-- The parent route table of parentChildMux, exactly as registered in the
source: Handle("/user/", StripPrefix("/user", user)) and
Handle("/record", StripPrefix("/record", record)). -/
def parentChildEntries : List Entry :=
  [("/user/", stripPfx "/user" userMux), ("/record", stripPfx "/record" recordMux)]

/-- The parent mux of parentChildMux as an http.Handler. -/
def parentChildHandler : Handler := serveMux parentChildEntries

/-- Run one GET request for `path` against the parentChildMux router from a
fresh state. -/
def parentChildRun (path : String) : St :=
  parentChildHandler (getReq "localhost:8000" path) st0

/-- RequestTimer middleware: read time.Now before delegating, delegate, read
time.Now again, then log.Printf one record with the request path and the
elapsed duration end.Sub(start). -/
def RequestTimer (h : Handler) : Handler := fun r st =>
  let start := st.now
  let st1 := h r st
  let stop := st1.now
  { st1 with log := st1.log ++ [(r.path, (stop : Int) - (start : Int))] }

/-- The fixed rejection message of TerribleSecurityProvider. -/
def securityMsg : String := "You didn't give the secret password\n"

/-- TerribleSecurityProvider(password): middleware that compares the
X-Secret-Password header against the password; on mismatch it writes
StatusUnauthorized (401) and securityMsg and returns without calling the
inner handler, otherwise it calls the inner handler's ServeHTTP with the
same writer and request. -/
def TerribleSecurityProvider (password : String) : Handler → Handler :=
  fun h => fun r st =>
    if headerGet r.headers "X-Secret-Password" != password then
      St.write (St.writeHeader st 401) securityMsg
    else
      h r st

/-- The terminal handler of muxWithMiddleware: writes "Hello, world!\n". -/
def helloHandler : Handler := fun _ st => St.write st "Hello, world!\n"

/-- The /hello pipeline of muxWithMiddleware:
TerribleSecurityProvider("PASSWORD") wrapping RequestTimer wrapping the
hello handler, registered on a mux under "/hello". -/
def muxWithMiddlewareHandler : Handler :=
  serveMux [("/hello", TerribleSecurityProvider "PASSWORD" (RequestTimer helloHandler))]

/-- A generic middleware with an explicit pre-phase and post-phase around
the inner handler, used to state the composition-order contract: the Go
middleware pattern `return HandlerFunc(func(w, r) { pre; h.ServeHTTP(w, r); post })`. -/
def mkMiddleware (pre post : St → St) : Handler → Handler :=
  fun h r st => post (h r (pre st))

/-- A parsed JSON value.  marshal's input bytes are given to json.Decoder;
the byte-level parser is the external framer, so the codec is embedded at
the level of the parsed value. -/
inductive JVal where
  | jstr : String → JVal
  | jnum : Int → JVal
  | jbool : Bool → JVal
  | jnull : JVal
  | jarr : List JVal → JVal
  | jobj : List (String × JVal) → JVal
deriving Repr

/-- The target struct of json.go: one field Name with json tag "name". -/
structure testJSON where
  Name : String
deriving Repr, DecidableEq

/-- encoding/json's d.saveError: only the first error is kept; decoding
continues after it. -/
def saveErr (e : Option String) (msg : String) : Option String :=
  match e with
  | some m => some m
  | none => some msg

/-- ASCII lower-casing of one character. -/
def charLower (c : Char) : Char :=
  if 'A' ≤ c ∧ c ≤ 'Z' then Char.ofNat (c.toNat + 32) else c

/-- encoding/json matches an incoming object key to a struct field
preferring an exact match but also accepting a case-insensitive one; for
the all-simple-letter field name "name" the fold it uses
(simpleLetterEqualFold) is ASCII case-insensitive equality, so a key
matches the field exactly when both fold to the same string. -/
def foldEq (a b : String) : Bool :=
  a.data.map charLower == b.data.map charLower

/-- Decode one object member into testJSON with DisallowUnknownFields, as
encoding/json's object loop does: a key matching the field "name" (up to
case) with a string value is stored into Name; a JSON null is a no-op; any
other value for that key saves an UnmarshalTypeError without touching the
field; a key matching no field saves an unknown-field error and the
member's value is skipped.  All members are processed even after an error
was saved. -/
def decodeField (acc : testJSON × Option String) (f : String × JVal) :
    testJSON × Option String :=
  if foldEq f.1 "name" then
    match f.2 with
    | JVal.jstr s => ({ Name := s }, acc.2)
    | JVal.jnull => acc
    | _ => (acc.1, saveErr acc.2 "json: cannot unmarshal value into field name of type string")
  else
    (acc.1, saveErr acc.2 ("json: unknown field " ++ f.1))

/-- marshal(b, tj) of json.go: decode the parsed value into *tj with
DisallowUnknownFields set, returning the updated struct together with the
error Decode reported (none on success).  A JSON null leaves the target
untouched without error; a non-object top-level value is a type error. -/
def marshal (v : JVal) (tj : testJSON) : testJSON × Option String :=
  match v with
  | JVal.jobj fields => fields.foldl decodeField (tj, none)
  | JVal.jnull => (tj, none)
  | _ => (tj, some "json: cannot unmarshal value into value of type testJSON")

/-- goodJSONString of json_test.go as a parsed value. -/
def goodJSON : JVal := JVal.jobj [("name", JVal.jstr "michael")]

/-- badJSONString of json_test.go as a parsed value: the valid name member
followed by the unknown member "address". -/
def badJSON : JVal :=
  JVal.jobj [("name", JVal.jstr "michael"),
             ("address", JVal.jstr "1234 Shady Lane Boston, MA")]

/-- Does decoding this object member leave an error with
DisallowUnknownFields: every key not matching the field "name" up to case,
and a name-matching key whose value is neither a string nor null. -/
def fieldErr (f : String × JVal) : Bool :=
  if foldEq f.1 "name" then
    match f.2 with
    | JVal.jstr _ => false
    | JVal.jnull => false
    | _ => true
  else true

/-- Does decoding this member list leave an error. -/
def objHasErr (fields : List (String × JVal)) : Bool := fields.any fieldErr

/-- One operation a handler can perform on the response sink. -/
inductive SinkOp where
  | wr : String → SinkOp
  | hdr : Nat → SinkOp
deriving Repr, DecidableEq

/-- Apply one sink operation. -/
def applyOp (s : Sink) (op : SinkOp) : Sink :=
  match op with
  | SinkOp.wr c => s.write c
  | SinkOp.hdr code => s.writeHeader code

/-- Run a sequence of sink operations. -/
def runOps (s : Sink) (ops : List SinkOp) : Sink := ops.foldl applyOp s

/-- Does a registered pattern match a path under ServeMux matching: exactly,
or as a slash-terminated pattern that is a leading part of the path. -/
def matchesPat (pat path : String) : Bool :=
  pat == path || (strEnds pat "/" && strStarts path pat)

end GoPractice

namespace GoPractice

/-- C1: in the newServeMux scenario, GET /alive gets status 200 — but the
body the handler writes is "ok!\n", not "ok!": the claimed body is wrong by
the trailing newline. -/
theorem alive_body_newline_cex :
    (newServeMuxRun "/alive").sink.body = "ok!\n" ∧
    (newServeMuxRun "/alive").sink.body ≠ "ok!" := by
  decide

/-- C1 (amended): in the newServeMux scenario, GET /alive receives status
200 with body "ok!\n" (trailing newline), and a request for the
unregistered path /missing receives status 404. -/
theorem alive_missing_scenario :
    (newServeMuxRun "/alive").sink.status = some 200 ∧
    (newServeMuxRun "/alive").sink.body = "ok!\n" ∧
    (newServeMuxRun "/missing").sink.status = some 404 := by
  decide

/-- C7: the source registers the ready handler under the pattern "ready"
without a leading slash, which ServeMux treats as host-qualified and which
can never match a request path; GET /ready therefore receives the 404
not-found response instead of 200 "always", contradicting the code's own
comment that the mux "handles two requests, /alive and /ready". -/
theorem ready_pattern_404 :
    (newServeMuxRun "/ready").sink = ⟨some 404, "404 page not found\n"⟩ := by
  decide

/-- C9: marshal is not atomic on error: decoding the test's bad JSON (valid
"name" member followed by the unknown member "address") into a fresh
testJSON returns an error, yet the struct's Name field was already updated
to "michael". -/
theorem marshal_not_atomic :
    (marshal badJSON ⟨""⟩).2.isSome = true ∧
    (marshal badJSON ⟨""⟩).1.Name = "michael" := by
  decide

/-- C3: RequestTimer reads the clock before delegating and again after the
inner handler returns, logs the elapsed difference for the request path,
appends exactly one record beyond whatever the inner handler logged — for
every inner handler, i.e. regardless of the inner outcome — and leaves the
inner handler's sink and clock untouched. -/
theorem requestTimer_records_once (h : Handler) (r : Request) (st : St) :
    (RequestTimer h r st).log
      = (h r st).log ++ [(r.path, ((h r st).now : Int) - (st.now : Int))] ∧
    (RequestTimer h r st).sink = (h r st).sink ∧
    (RequestTimer h r st).now = (h r st).now ∧
    (RequestTimer h r st).log.length = (h r st).log.length + 1 := by
  refine ⟨rfl, rfl, rfl, ?_⟩
  simp [RequestTimer]

/-- Helper: on a failed credential check the security middleware performs
exactly WriteHeader(401) followed by Write(securityMsg), independently of
the wrapped handler. -/
theorem tsp_reject (password : String) (h : Handler) (r : Request) (st : St)
    (hne : headerGet r.headers "X-Secret-Password" ≠ password) :
    TerribleSecurityProvider password h r st
      = St.write (St.writeHeader st 401) securityMsg := by
  have hb : (headerGet r.headers "X-Secret-Password" != password) = true := by
    simpa [bne_iff_ne] using hne
  simp [TerribleSecurityProvider, hb]

/-- Helper: on a passed credential check the security middleware is exactly
the wrapped handler on the unchanged request and state. -/
theorem tsp_pass (password : String) (h : Handler) (r : Request) (st : St)
    (heq : headerGet r.headers "X-Secret-Password" = password) :
    TerribleSecurityProvider password h r st = h r st := by
  have hb : (headerGet r.headers "X-Secret-Password" != password) = false := by
    simp [bne_iff_ne, heq]
  simp [TerribleSecurityProvider, hb]

/-- C2: for every request, when the X-Secret-Password check fails the
middleware built by TerribleSecurityProvider writes 401 and the fixed
securityMsg to the sink (for a sink with no status yet: status becomes 401
and the message is appended) and never invokes the inner handler (the
result is the same for every inner handler); when the check passes it
delegates to the inner handler with the request and state unchanged. -/
theorem terribleSecurity_check (password : String) (h : Handler) (r : Request) (st : St) :
    (headerGet r.headers "X-Secret-Password" ≠ password →
      (∀ h', TerribleSecurityProvider password h r st
              = TerribleSecurityProvider password h' r st) ∧
      TerribleSecurityProvider password h r st
        = St.write (St.writeHeader st 401) securityMsg ∧
      (st.sink.status = none →
        (TerribleSecurityProvider password h r st).sink
          = ⟨some 401, st.sink.body ++ securityMsg⟩)) ∧
    (headerGet r.headers "X-Secret-Password" = password →
      TerribleSecurityProvider password h r st = h r st) := by
  constructor
  · intro hne
    refine ⟨?_, tsp_reject password h r st hne, ?_⟩
    · intro h'
      rw [tsp_reject password h r st hne, tsp_reject password h' r st hne]
    · intro hst
      rw [tsp_reject password h r st hne]
      simp [St.write, St.writeHeader, Sink.write, Sink.writeHeader, hst]
  · exact tsp_pass password h r st

/-- Witness for C2: with password "PASSWORD", a request carrying the wrong
header value is rejected with the 401 write, and a request carrying the
right value is delegated unchanged. -/
theorem terribleSecurity_check_witness :
    (TerribleSecurityProvider "PASSWORD" helloHandler
        ⟨"GET", "localhost:8000", "/hello", [("X-Secret-Password", "nope")]⟩ st0
      = St.write (St.writeHeader st0 401) securityMsg) ∧
    (TerribleSecurityProvider "PASSWORD" helloHandler
        ⟨"GET", "localhost:8000", "/hello", [("X-Secret-Password", "PASSWORD")]⟩ st0
      = helloHandler
          ⟨"GET", "localhost:8000", "/hello", [("X-Secret-Password", "PASSWORD")]⟩ st0) :=
  ⟨((terribleSecurity_check "PASSWORD" helloHandler
      ⟨"GET", "localhost:8000", "/hello", [("X-Secret-Password", "nope")]⟩ st0).1
      (by decide)).2.1,
   (terribleSecurity_check "PASSWORD" helloHandler
      ⟨"GET", "localhost:8000", "/hello", [("X-Secret-Password", "PASSWORD")]⟩ st0).2
      (by decide)⟩

/-- C10: a request lacking the X-Secret-Password header entirely makes the
header lookup return the empty string, so the security check treats it like
any candidate password "": it is authorized (delegates to the inner
handler) exactly when the provider's password is "", and for a nonempty
password it is rejected with the same 401 write a wrong password gets,
without the inner handler ever being invoked. -/
theorem missing_header_as_empty (password : String) (h : Handler) (r : Request) (st : St)
    (hnone : r.headers.find? (fun kv => kv.1 == "X-Secret-Password") = none) :
    headerGet r.headers "X-Secret-Password" = "" ∧
    (password = "" → TerribleSecurityProvider password h r st = h r st) ∧
    (password ≠ "" →
      TerribleSecurityProvider password h r st
        = St.write (St.writeHeader st 401) securityMsg ∧
      ∀ h', TerribleSecurityProvider password h r st
              = TerribleSecurityProvider password h' r st) := by
  have hget : headerGet r.headers "X-Secret-Password" = "" := by
    simp [headerGet, hnone]
  refine ⟨hget, ?_, ?_⟩
  · intro hpw
    exact tsp_pass password h r st (by rw [hget, hpw])
  · intro hpw
    have hne : headerGet r.headers "X-Secret-Password" ≠ password := by
      rw [hget]; exact fun hc => hpw hc.symm
    refine ⟨tsp_reject password h r st hne, ?_⟩
    intro h'
    rw [tsp_reject password h r st hne, tsp_reject password h' r st hne]

/-- Witness for C10: a header-free request is delegated by the provider
with password "" and rejected by the provider with password "PASSWORD". -/
theorem missing_header_as_empty_witness :
    (TerribleSecurityProvider "" helloHandler (getReq "localhost:8000" "/hello") st0
      = helloHandler (getReq "localhost:8000" "/hello") st0) ∧
    (TerribleSecurityProvider "PASSWORD" helloHandler (getReq "localhost:8000" "/hello") st0
      = St.write (St.writeHeader st0 401) securityMsg) :=
  ⟨(missing_header_as_empty "" helloHandler (getReq "localhost:8000" "/hello") st0
      rfl).2.1 rfl,
   ((missing_header_as_empty "PASSWORD" helloHandler (getReq "localhost:8000" "/hello") st0
      rfl).2.2 (by decide)).1⟩

/-- C4: middleware composition is a nested-call structure.  (i) In general,
M1(M2(M3(h))) runs the pre-phases outside-in (M1 first) and the
post-phases in reverse order as the call returns.  (ii) When the timer
wraps the security middleware and the check rejects, the inner handler
never runs (the result is independent of it) while the timer still
records exactly one duration for the rejected request (a zero duration,
since the rejection advances no clock).  (iii) In the source's
muxWithMiddleware order — security wrapping the timer — a rejection
short-circuits: the timer-wrapped handler never runs, no timing record is
emitted, and the result is independent of the wrapped handler. -/
theorem middleware_ordering :
    (∀ (p1 q1 p2 q2 p3 q3 : St → St) (h : Handler) (r : Request) (st : St),
      mkMiddleware p1 q1 (mkMiddleware p2 q2 (mkMiddleware p3 q3 h)) r st
        = q1 (q2 (q3 (h r (p3 (p2 (p1 st))))))) ∧
    (∀ (password : String) (h : Handler) (r : Request) (st : St),
      headerGet r.headers "X-Secret-Password" ≠ password →
        RequestTimer (TerribleSecurityProvider password h) r st
          = { St.write (St.writeHeader st 401) securityMsg with
              log := st.log ++ [(r.path, 0)] } ∧
        ∀ h', RequestTimer (TerribleSecurityProvider password h) r st
                = RequestTimer (TerribleSecurityProvider password h') r st) ∧
    (∀ (password : String) (h : Handler) (r : Request) (st : St),
      headerGet r.headers "X-Secret-Password" ≠ password →
        TerribleSecurityProvider password (RequestTimer h) r st
          = St.write (St.writeHeader st 401) securityMsg ∧
        (TerribleSecurityProvider password (RequestTimer h) r st).log = st.log ∧
        ∀ h', TerribleSecurityProvider password (RequestTimer h) r st
                = TerribleSecurityProvider password (RequestTimer h') r st) := by
  refine ⟨fun p1 q1 p2 q2 p3 q3 h r st => rfl, ?_, ?_⟩
  · intro password h r st hne
    have hrej : ∀ h0 : Handler, RequestTimer (TerribleSecurityProvider password h0) r st
        = { St.write (St.writeHeader st 401) securityMsg with
            log := st.log ++ [(r.path, 0)] } := by
      intro h0
      simp only [RequestTimer, tsp_reject password h0 r st hne, St.write, St.writeHeader]
      simp
    exact ⟨hrej h, fun h' => by rw [hrej h, hrej h']⟩
  · intro password h r st hne
    refine ⟨tsp_reject password (RequestTimer h) r st hne, ?_, ?_⟩
    · rw [tsp_reject password (RequestTimer h) r st hne]; rfl
    · intro h'
      rw [tsp_reject password (RequestTimer h) r st hne,
          tsp_reject password (RequestTimer h') r st hne]

/-- Witness for C4: a wrong-password request through both composition
orders: timer around security still logs one record; security around timer
(the source's order) rejects without logging. -/
theorem middleware_ordering_witness :
    (RequestTimer (TerribleSecurityProvider "PASSWORD" helloHandler)
        ⟨"GET", "localhost:8000", "/hello", [("X-Secret-Password", "nope")]⟩ st0
      = { St.write (St.writeHeader st0 401) securityMsg with
          log := st0.log ++ [("/hello", 0)] }) ∧
    (TerribleSecurityProvider "PASSWORD" (RequestTimer helloHandler)
        ⟨"GET", "localhost:8000", "/hello", [("X-Secret-Password", "nope")]⟩ st0
      = St.write (St.writeHeader st0 401) securityMsg) :=
  ⟨(middleware_ordering.2.1 "PASSWORD" helloHandler
      ⟨"GET", "localhost:8000", "/hello", [("X-Secret-Password", "nope")]⟩ st0
      (by decide)).1,
   (middleware_ordering.2.2 "PASSWORD" helloHandler
      ⟨"GET", "localhost:8000", "/hello", [("X-Secret-Password", "nope")]⟩ st0
      (by decide)).1⟩

/-- Helper: a sink whose status is already written keeps it through any
further sequence of operations. -/
theorem runOps_status_stable (s : Sink) (code : Nat) (ops : List SinkOp)
    (hs : s.status = some code) : (runOps s ops).status = some code := by
  induction ops generalizing s with
  | nil => exact hs
  | cons op rest ih =>
    have hop : (applyOp s op).status = some code := by
      cases op with
      | wr c => simp [applyOp, Sink.write, hs]
      | hdr c => simp [applyOp, Sink.writeHeader, hs]
    exact ih (applyOp s op) hop

/-- C8: a body write on a fresh sink before any explicit WriteHeader makes
the status 200 and it stays 200 through any further operations; in general
a status, once written, is kept unchanged by every later operation (a
second WriteHeader is ignored), so the status is set at most once and is
final. -/
theorem sink_status_once :
    (∀ (c : String) (rest : List SinkOp),
      (runOps sink0 (SinkOp.wr c :: rest)).status = some 200) ∧
    (∀ (s : Sink) (code : Nat), s.status = some code →
      ∀ ops : List SinkOp, (runOps s ops).status = some code) := by
  constructor
  · intro c rest
    have h1 : (applyOp sink0 (SinkOp.wr c)).status = some 200 := rfl
    exact runOps_status_stable (applyOp sink0 (SinkOp.wr c)) 200 rest h1
  · intro s code hs ops
    exact runOps_status_stable s code ops hs

/-- Witness for C8: a sink already holding status 418 keeps it through a
later WriteHeader(500) and a body write. -/
theorem sink_status_once_witness :
    (runOps ⟨some 418, ""⟩ [SinkOp.hdr 500, SinkOp.wr "x"]).status = some 418 :=
  sink_status_once.2 ⟨some 418, ""⟩ 418 rfl [SinkOp.hdr 500, SinkOp.wr "x"]

/-- Helper: d.saveError always leaves an error present. -/
theorem saveErr_isSome (e : Option String) (msg : String) :
    (saveErr e msg).isSome = true := by
  cases e <;> simp [saveErr]

/-- Helper: one object member leaves an error exactly when one was already
present or the member itself is erroneous. -/
theorem decodeField_err (acc : testJSON × Option String) (f : String × JVal) :
    ((decodeField acc f).2).isSome = (acc.2.isSome || fieldErr f) := by
  rcases f with ⟨k, v⟩
  by_cases hk : foldEq k "name" = true
  · cases v <;> simp [decodeField, fieldErr, hk, saveErr_isSome]
  · simp [decodeField, fieldErr, hk, saveErr_isSome]

/-- Helper: folding the object loop leaves an error exactly when one was
already present or some member is erroneous. -/
theorem foldl_decode_err (fields : List (String × JVal)) :
    ∀ acc : testJSON × Option String,
      ((fields.foldl decodeField acc).2).isSome = (acc.2.isSome || objHasErr fields) := by
  induction fields with
  | nil => intro acc; simp [objHasErr]
  | cons f t ih =>
    intro acc
    simp only [List.foldl_cons]
    rw [ih, decodeField_err]
    simp [objHasErr, Bool.or_assoc]

/-- C6: marshal on the test's good JSON succeeds and populates Name with
"michael"; a key matching the field only case-insensitively, such as
"Name", is likewise accepted and sets the field without error; on the
test's bad JSON (extra member "address" with unknown fields disallowed) it
returns an error; an object with no members — in particular with the
"name" member missing — decodes without error (the decoder has no required
fields); and in general marshal of an object fails exactly when some
member's key matches no field even up to case or a name-matching member's
value mismatches the string field (null being a no-op). -/
theorem marshal_error_iff :
    (marshal goodJSON ⟨""⟩ = (⟨"michael"⟩, none)) ∧
    (marshal (JVal.jobj [("Name", JVal.jstr "michael")]) ⟨""⟩ = (⟨"michael"⟩, none)) ∧
    ((marshal badJSON ⟨""⟩).2.isSome = true) ∧
    (∀ tj : testJSON, marshal (JVal.jobj []) tj = (tj, none)) ∧
    (∀ (fields : List (String × JVal)) (tj : testJSON),
      ((marshal (JVal.jobj fields) tj).2.isSome = true ↔ objHasErr fields = true)) := by
  refine ⟨by decide, by decide, by decide, fun tj => rfl, ?_⟩
  intro fields tj
  show ((fields.foldl decodeField (tj, none)).2).isSome = true ↔ _
  rw [foldl_decode_err]
  simp

/-- Helper: `better` returns one of its arguments and its pattern is at
least as long as either. -/
theorem better_spec (e b : Entry) :
    (better e b = e ∨ better e b = b) ∧
    strLen e.1 ≤ strLen (better e b).1 ∧ strLen b.1 ≤ strLen (better e b).1 := by
  unfold better
  by_cases hlt : strLen b.1 < strLen e.1
  · rw [if_pos hlt]
    exact ⟨Or.inl rfl, le_refl _, le_of_lt hlt⟩
  · rw [if_neg hlt]
    exact ⟨Or.inr rfl, Nat.le_of_not_lt hlt, le_refl _⟩

/-- Helper: bestSlash returns a member of the candidate list whose pattern
length is maximal among the candidates. -/
theorem bestSlash_spec (l : List Entry) :
    ∀ e : Entry, bestSlash l = some e →
      e ∈ l ∧ ∀ x ∈ l, strLen x.1 ≤ strLen e.1 := by
  induction l with
  | nil => intro e h; simp [bestSlash] at h
  | cons a rest ih =>
    intro e h
    cases hb : bestSlash rest with
    | none =>
      have hrest : rest = [] := by
        cases rest with
        | nil => rfl
        | cons c t => simp [bestSlash] at hb
      subst hrest
      simp only [bestSlash, Option.elim, Option.some.injEq] at h
      subst h
      refine ⟨List.mem_singleton.mpr rfl, ?_⟩
      intro x hx
      simp only [List.mem_singleton] at hx
      subst hx
      exact le_refl _
    | some b =>
      have hbspec := ih b hb
      simp only [bestSlash, hb, Option.elim, Option.some.injEq] at h
      subst h
      obtain ⟨hor, hea, hba⟩ := better_spec a b
      constructor
      · rcases hor with hor | hor <;> rw [hor]
        · exact List.mem_cons_self _ _
        · exact List.mem_cons_of_mem _ hbspec.1
      · intro x hx
        rcases List.mem_cons.mp hx with hx | hx
        · subst hx; exact hea
        · exact le_trans (hbspec.2 x hx) hba

/-- Helper: whatever entry ServeMux matching returns is a registered entry
that matches the path, and its pattern is the longest among all registered
entries matching the path. -/
theorem muxMatch_spec (entries : List Entry) (path : String) (e : Entry)
    (hm : muxMatch entries path = some e) :
    e ∈ entries ∧ matchesPat e.1 path = true ∧
      ∀ x ∈ entries, matchesPat x.1 path = true → strLen x.1 ≤ strLen e.1 := by
  unfold muxMatch at hm
  cases hf : entries.find? (fun e => e.1 == path) with
  | none =>
    rw [hf] at hm
    have hspec := bestSlash_spec _ e hm
    obtain ⟨hmem, hpred⟩ := List.mem_filter.mp hspec.1
    refine ⟨hmem, ?_, ?_⟩
    · simp only [matchesPat, Bool.or_eq_true]
      right
      exact hpred
    · intro x hx hmx
      simp only [matchesPat, Bool.or_eq_true] at hmx
      rcases hmx with hxe | hxs
      · exact absurd hxe (List.find?_eq_none.mp hf x hx)
      · exact hspec.2 x (List.mem_filter.mpr ⟨hx, hxs⟩)
  | some e0 =>
    rw [hf] at hm
    simp only [Option.some.injEq] at hm
    subst hm
    have hmem : e0 ∈ entries := List.mem_of_find?_eq_some hf
    have hbeq := List.find?_some hf
    have hpe : e0.1 = path := eq_of_beq hbeq
    refine ⟨hmem, ?_, ?_⟩
    · simp only [matchesPat, Bool.or_eq_true]
      left
      exact beq_iff_eq.mpr hpe
    · intro x hx hmx
      simp only [matchesPat, Bool.or_eq_true, Bool.and_eq_true] at hmx
      rcases hmx with hxe | ⟨_, hxs⟩
      · have hxp : x.1 = path := beq_iff_eq.mp hxe
        rw [strLen, strLen, hpe, hxp]
      · have hpref : x.1.data <+: path.data :=
          List.isPrefixOf_iff_prefix.mp hxs
        have hlen := hpref.length_le
        simpa [strLen, hpe] using hlen

/-- Helper: StripPrefix on a path that extends the (nonempty) stripped
part delegates to the inner handler with exactly the remainder as path. -/
theorem stripPfx_append (pfx rest m host : String) (hdrs : List (String × String))
    (h : Handler) (st : St) (hne : pfx ≠ "") :
    stripPfx pfx h ⟨m, host, pfx ++ rest, hdrs⟩ st = h ⟨m, host, rest, hdrs⟩ st := by
  have hdata : (pfx ++ rest).data = pfx.data ++ rest.data := String.data_append pfx rest
  have hstart : strStarts (pfx ++ rest) pfx = true := by
    unfold strStarts
    rw [hdata]
    exact List.isPrefixOf_iff_prefix.mpr (List.prefix_append pfx.data rest.data)
  have hdrop : strDrop (pfx ++ rest) (strLen pfx) = rest := by
    unfold strDrop strLen
    rw [hdata, List.drop_left]
  unfold stripPfx
  rw [if_neg hne]
  show (if strStarts (pfx ++ rest) pfx = true then
          h ⟨m, host, strDrop (pfx ++ rest) (strLen pfx), hdrs⟩ st
        else notFoundHandler ⟨m, host, pfx ++ rest, hdrs⟩ st) = h ⟨m, host, rest, hdrs⟩ st
  rw [if_pos hstart, hdrop]

/-- C5: ServeMux dispatch selects a registered entry whose pattern matches
the request path and is the longest such pattern; StripPrefix removes the
registered leading part before delegating, so for the parentChildMux
registration of "/user/" with StripPrefix("/user"), a request for
/user/fetch answers "This is a user!" with status 200 and the nested user
router is invoked with exactly the remaining sub-path /fetch. -/
theorem router_longest_match_strips :
    (∀ (entries : List Entry) (path : String) (e : Entry),
      muxMatch entries path = some e →
        e ∈ entries ∧ matchesPat e.1 path = true ∧
        ∀ x ∈ entries, matchesPat x.1 path = true → strLen x.1 ≤ strLen e.1) ∧
    (∀ (pfx rest m host : String) (hdrs : List (String × String)) (h : Handler) (st : St),
      pfx ≠ "" →
        stripPfx pfx h ⟨m, host, pfx ++ rest, hdrs⟩ st = h ⟨m, host, rest, hdrs⟩ st) ∧
    ((parentChildRun "/user/fetch").sink = ⟨some 200, "This is a user!"⟩) ∧
    (∀ (h : Handler) (st : St),
      stripPfx "/user" h (getReq "localhost:8000" "/user/fetch") st
        = h (getReq "localhost:8000" "/fetch") st) := by
  refine ⟨muxMatch_spec, ?_, by decide, ?_⟩
  · intro pfx rest m host hdrs h st hne
    exact stripPfx_append pfx rest m host hdrs h st hne
  · intro h st
    exact stripPfx_append "/user" "/fetch" "GET" "localhost:8000" [] h st (by decide)

/-- Witness for C5: the /user/ entry is the match ServeMux picks for
/user/fetch, and stripping a concrete leading part hands the remainder to
the inner handler. -/
theorem router_longest_match_strips_witness :
    matchesPat "/user/" "/user/fetch" = true ∧
    (stripPfx "/x" userMux ⟨"GET", "localhost:8000", "/x" ++ "/fetch", []⟩ st0
      = userMux ⟨"GET", "localhost:8000", "/fetch", []⟩ st0) :=
  ⟨(router_longest_match_strips.1 parentChildEntries "/user/fetch"
      ("/user/", stripPfx "/user" userMux) rfl).2.1,
   router_longest_match_strips.2.1 "/x" "/fetch" "GET" "localhost:8000" [] userMux st0
      (by decide)⟩

end GoPractice
